import Mathlib

/-!
Verification development for the processing-network core of the
DirectionalityIndicator repository.

The development shallowly embeds the parts of the code that the checked
properties talk about:

- a small-step state machine for the command queue (worker thread, FIFO,
  stop semantics),
- a functional model of the network graph (node set, edge set, commands
  and their outcomes),
- the snapshot visitors of ProcessingNetwork (translated from the
  template bodies in the header),
- the process and getBoundingBox members of RenderIllustrativeLines
  (translated from RenderIllustrativeLines.cpp).

Machine pointers (shared_ptr identities) are modelled as structures with
a numeric ptrId field; pointer comparison becomes structural equality,
which coincides with identity because distinct objects get distinct ids.
-/

namespace DI

/-- Outcome of executing one command: reported to the observer of the
command as success or failure. -/
inductive Outcome where
  | success
  | failure
deriving DecidableEq

/-! ## Command queue state machine

Modelled from the spec: the implementations of CommandQueue and of
ProcessingNetwork::stop are not part of the available sources (only the
header declarations are), so the worker loop, commit and stop are
modelled from spec sections 4.1 and 5 and from the doc comments of
ProcessingNetwork::stop. A queue state records the pending FIFO, the
execution trace of the worker, a ghost trace of all commits in arrival
order, the stop flag with its graceful mode, and whether the worker
thread is still running. Executing a command is what marks it handled
and invokes its observer, so the executed trace is also the trace of
observer invocations. Commits carry the id of the committing thread so
that per-thread ordering can be stated. -/

/-- State of the command queue with its worker thread. Entries of the
lists are pairs of a thread id and a command id. -/
structure QState where
  queue : List (Nat × Nat)
  executed : List (Nat × Nat)
  committed : List (Nat × Nat)
  stopped : Bool
  graceful : Bool
  running : Bool
deriving DecidableEq

/-- The queue right after start: empty, worker running, not stopped. -/
def initQ : QState :=
  { queue := [], executed := [], committed := [], stopped := false,
    graceful := true, running := true }

/-- Modelled from the spec: one step of the queue system. commit pushes
at the tail of the FIFO (and onto the ghost arrival trace); the worker
dequeues and executes exactly one command from the head; stop sets the
stop flag once with its graceful mode; the worker exits either after
draining the queue (graceful) or immediately (non-graceful). -/
inductive QStep : QState → QState → Prop where
  | commit (s : QState) (t c : Nat) (h : s.stopped = false) :
      QStep s { s with queue := s.queue ++ [(t, c)],
                       committed := s.committed ++ [(t, c)] }
  | execOne (s : QState) (tc : Nat × Nat) (rest : List (Nat × Nat))
      (hrun : s.running = true) (hq : s.queue = tc :: rest) :
      QStep s { s with queue := rest, executed := s.executed ++ [tc] }
  | stopSignal (s : QState) (g : Bool) (h : s.stopped = false) :
      QStep s { s with stopped := true, graceful := g }
  | exitGraceful (s : QState) (h1 : s.stopped = true)
      (h2 : s.graceful = true) (h3 : s.queue = []) :
      QStep s { s with running := false }
  | exitForced (s : QState) (h1 : s.stopped = true)
      (h2 : s.graceful = false) :
      QStep s { s with running := false }

/-- Reachability by zero or more queue steps. -/
inductive Reaches : QState → QState → Prop where
  | refl (s : QState) : Reaches s s
  | step {s t u : QState} : QStep s t → Reaches t u → Reaches s u

/-- The commands of one thread, projected from a trace in order. -/
def threadTrace (t : Nat) (l : List (Nat × Nat)) : List Nat :=
  (l.filter (fun p => p.1 == t)).map Prod.snd

/-- Combined queue invariant: the executed trace followed by the
pending FIFO is exactly the arrival trace, and a dead worker implies
the stop flag is set and, in graceful mode, an empty queue. -/
def QInv (s : QState) : Prop :=
  s.executed ++ s.queue = s.committed ∧
  (s.running = false → s.stopped = true ∧ (s.graceful = true → s.queue = []))

/-! ## Network graph model

Data model of Connector, Algorithm and Connection following spec
section 3; the node-set and edge-set mutators follow the doc comments
of addNetworkNode and addNetworkNodeEdge in the ProcessingNetwork
header (their cpp bodies are not among the available sources). -/

/-- A typed named endpoint on an algorithm. -/
structure Connector where
  name : String
  isInput : Bool
  typeTag : Nat
deriving DecidableEq

/-- A graph node: fixed connector list, identity, and whether the node
has the visualization capability (models the successful dynamic cast to
Visualization). -/
structure Algorithm where
  ptrId : Nat
  connectors : List Connector
  isVis : Bool
deriving DecidableEq

/-- An edge: source algorithm and connector name, destination algorithm
and connector name. -/
structure Connection where
  srcAlg : Algorithm
  srcConnector : String
  dstAlg : Algorithm
  dstConnector : String
deriving DecidableEq

/-- Authoritative network state: node set and edge set. List entries
with set semantics (insertion checks membership first, mirroring the
std set containers m_algorithms and m_connections). -/
structure NetworkState where
  algorithms : List Algorithm
  connections : List Connection
deriving DecidableEq

/-- Modelled from the spec: addNetworkNode inserts the algorithm into
the node set; if it already is inside, it is ignored (doc comment of
ProcessingNetwork::addNetworkNode). -/
def addNetworkNode (s : NetworkState) (a : Algorithm) : NetworkState :=
  if a ∈ s.algorithms then s
  else { s with algorithms := s.algorithms ++ [a] }

/-- Modelled from the spec: addNetworkNodeEdge inserts the connection
into the edge set; if it already is inside, it is ignored; connections
may reference algorithms that are not inside the network (doc comment
of ProcessingNetwork::addNetworkNodeEdge). -/
def addNetworkNodeEdge (s : NetworkState) (c : Connection) : NetworkState :=
  if c ∈ s.connections then s
  else { s with connections := s.connections ++ [c] }

/-- Look up a connector by name on an algorithm. -/
def findConnector (a : Algorithm) (nm : String) : Option Connector :=
  a.connectors.find? (fun c => c.name == nm)

/-- Modelled from the spec: resolution and validation performed when a
connect command executes. Both names must resolve, the source must be
an output, the destination an input, and the payload types must match;
on success the Connection record is produced. -/
def validConnection (src : Algorithm) (srcName : String)
    (dst : Algorithm) (dstName : String) : Option Connection :=
  match findConnector src srcName, findConnector dst dstName with
  | some cs, some cd =>
      if (!cs.isInput) && cd.isInput && (cs.typeTag == cd.typeTag) then
        some { srcAlg := src, srcConnector := srcName,
               dstAlg := dst, dstConnector := dstName }
      else
        none
  | _, _ => none

/-- Spec-level validity predicate, written after the words of the spec:
both named connectors exist, the source is an output, the destination
an input, and the payload types match. -/
def ResolvesValidly (src : Algorithm) (srcName : String)
    (dst : Algorithm) (dstName : String) : Prop :=
  ∃ cs cd, findConnector src srcName = some cs ∧
    findConnector dst dstName = some cd ∧
    cs.isInput = false ∧ cd.isInput = true ∧ cs.typeTag = cd.typeTag

/-- Commands executed by the worker against the network state. The
failing constructor stands for any command whose apply step raises an
error. -/
inductive Cmd where
  | addAlgorithmCmd (a : Algorithm)
  | connectCmd (src : Algorithm) (srcName : String)
      (dst : Algorithm) (dstName : String)
  | noopCmd
  | failingCmd
deriving DecidableEq

/-- Modelled from the spec: executing one command yields the new
network state and the outcome reported to the observer. Errors raised
during execution are caught at the worker boundary and become a failed
outcome; the state is left as it was. -/
def applyCmd : Cmd → NetworkState → NetworkState × Outcome
  | .addAlgorithmCmd a, s => (addNetworkNode s a, .success)
  | .connectCmd src sn dst dn, s =>
      match validConnection src sn dst dn with
      | some conn => (addNetworkNodeEdge s conn, .success)
      | none => (s, .failure)
  | .noopCmd, s => (s, .success)
  | .failingCmd, s => (s, .failure)

/-- Modelled from the spec: the worker loop executing a list of queued
commands in order, collecting each outcome; a failure never stops the
loop. -/
def runCommands : NetworkState → List Cmd → NetworkState × List Outcome
  | s, [] => (s, [])
  | s, c :: cs =>
      let r := applyCmd c s
      let rest := runCommands r.1 cs
      (rest.1, r.2 :: rest.2)

/-! ## Snapshot visitors

Translated from the template bodies of visitAlgorithms and
visitVisualizations in the ProcessingNetwork header. A visit is
represented by its invocation trace: the list of arguments on which the
user visitor is called, in call order. -/

/-- The loop of visitAlgorithms over the snapshot copy: the visitor is
called on each element in order. -/
def visitLoop : List Algorithm → List Algorithm
  | [] => []
  | a :: rest => a :: visitLoop rest

/-- visitAlgorithms: lock, copy the node set, unlock, then run the
visitor loop over the snapshot. The returned list is the invocation
trace of the visitor. -/
def visitAlgorithmsTrace (s : NetworkState) : List Algorithm :=
  let snapshot := s.algorithms
  visitLoop snapshot

/-- The wrapper lambda of visitVisualizations applied along the
invocation trace of visitAlgorithms: the user visitor is called exactly
when the dynamic cast to Visualization succeeds. -/
def visWrapLoop : List Algorithm → List Algorithm
  | [] => []
  | a :: rest => if a.isVis then a :: visWrapLoop rest else visWrapLoop rest

/-- visitVisualizations: visitAlgorithms with the casting wrapper. The
returned list is the invocation trace of the user visitor. -/
def visitVisualizationsTrace (s : NetworkState) : List Algorithm :=
  visWrapLoop (visitAlgorithmsTrace s)

/-! ## RenderIllustrativeLines

Translated from RenderIllustrativeLines.cpp: the process member and the
getBoundingBox member. -/

/-- A bounding box; the default constructed box is empty (bounds none). -/
structure BoundingBox where
  bounds : Option (Int × Int)
deriving DecidableEq

/-- The default constructed, empty bounding box. -/
def emptyBoundingBox : BoundingBox := { bounds := none }

/-- A triangle grid, identified by pointer identity, carrying its
bounding box. -/
structure TriangleGrid where
  gridId : Nat
  bbox : BoundingBox
deriving DecidableEq

/-- A triangle data set pointer: identity plus the grid it refers to. -/
structure TriangleDataSet where
  ptrId : Nat
  grid : TriangleGrid
deriving DecidableEq

/-- A triangle vector field pointer: identity plus the grid it refers
to. -/
structure TriangleVectorField where
  ptrId : Nat
  grid : TriangleGrid
deriving DecidableEq

/-- State of a RenderIllustrativeLines instance: the two stored data
pointers, the rendering-requested flag of the Visualization base, and a
count of renderRequest invocations. -/
structure RenderState where
  visTriangleData : Option TriangleDataSet
  visTriangleVectorData : Option TriangleVectorField
  renderingRequested : Bool
  renderRequestCount : Nat
deriving DecidableEq

/-- Visualization::renderRequest: set the flag; the invocation counter
records that the call happened. -/
def renderRequest (s : RenderState) : RenderState :=
  { s with renderingRequested := true,
           renderRequestCount := s.renderRequestCount + 1 }

/-- The input validation at the top of RenderIllustrativeLines::process:
if either input is missing or the grids do not match, both local
pointers are reset to null. -/
def filterInputs (dataIn : Option TriangleDataSet)
    (vectorsIn : Option TriangleVectorField) :
    Option TriangleDataSet × Option TriangleVectorField :=
  match dataIn, vectorsIn with
  | some d, some v => if d.grid == v.grid then (some d, some v) else (none, none)
  | _, _ => (none, none)

/-- RenderIllustrativeLines::process. Reads both inputs; if either is
missing or the grids do not match, both locals are reset to null; the
stored pointers are replaced by the locals; renderRequest is called
exactly when a stored pointer changed. -/
def process (s : RenderState) (dataIn : Option TriangleDataSet)
    (vectorsIn : Option TriangleVectorField) : RenderState :=
  let dv := filterInputs dataIn vectorsIn
  let changeVis := (s.visTriangleData != dv.1) || (s.visTriangleVectorData != dv.2)
  let s1 := { s with visTriangleData := dv.1, visTriangleVectorData := dv.2 }
  if changeVis then renderRequest s1 else s1

/-- RenderIllustrativeLines::getBoundingBox: the bounding box of the
grid of the stored triangle data, or the default box when no data has
been accepted. -/
def getBoundingBox (s : RenderState) : BoundingBox :=
  match s.visTriangleData with
  | some d => d.grid.bbox
  | none => emptyBoundingBox

/-! ## Command instance life cycle

Modelled from the spec: the Command class itself is not among the
available sources; the handled flag, the observer notification and the
usage error on double handling follow spec section 4.2. -/

/-- State of one command instance: whether it has been handled, how
often its observer was notified, and the recorded outcome. -/
structure CommandInstance where
  isHandled : Bool
  notifyCount : Nat
  result : Option Outcome
deriving DecidableEq

/-- Result of running the apply step of a command instance: the updated
instance, or a loud usage error when the instance was already handled. -/
inductive ApplyResult where
  | ok (c : CommandInstance)
  | usageError
deriving DecidableEq

/-- Modelled from the spec: the apply step finishes by marking the
command handled with its outcome, notifying the observer once; applying
an already handled command signals a usage error. -/
def handleCommand (c : CommandInstance) (r : Outcome) : ApplyResult :=
  if c.isHandled then .usageError
  else .ok { isHandled := true, notifyCount := c.notifyCount + 1,
             result := some r }

/-! ## Concrete states used to exercise the theorems -/

/-- Queue state after two commits from threads 0 and 1 and one worker
execution step. -/
def qw1 : QState :=
  { queue := [(1, 20)], executed := [(0, 10)], committed := [(0, 10), (1, 20)],
    stopped := false, graceful := true, running := true }

/-- Queue state after two commits from thread 0, a non-graceful stop
and a forced worker exit: both commands abandoned. -/
def qw2 : QState :=
  { queue := [(0, 1), (0, 2)], executed := [], committed := [(0, 1), (0, 2)],
    stopped := true, graceful := false, running := false }

end DI

namespace DI

/-! ## Helper lemmas -/

/-- Every queue step preserves the combined invariant. -/
theorem qstep_preserves_inv {s t : QState} (hinv : QInv s) (hst : QStep s t) :
    QInv t := by
  obtain ⟨h1, h2⟩ := hinv
  cases hst with
  | commit t c h =>
      refine ⟨?_, ?_⟩
      · simp only [← h1, List.append_assoc]
      · intro hr
        rcases h2 hr with ⟨hstop, _⟩
        rw [h] at hstop
        cases hstop
  | execOne tc rest hrun hq =>
      refine ⟨?_, ?_⟩
      · simp only [← h1, hq, List.append_assoc, List.singleton_append]
      · intro hr
        rw [hrun] at hr
        cases hr
  | stopSignal g h =>
      refine ⟨h1, ?_⟩
      intro hr
      rcases h2 hr with ⟨hstop, _⟩
      rw [h] at hstop
      cases hstop
  | exitGraceful ha hb hc =>
      exact ⟨h1, fun _ => ⟨ha, fun _ => hc⟩⟩
  | exitForced ha hb =>
      refine ⟨h1, fun _ => ⟨ha, fun hg => ?_⟩⟩
      rw [hb] at hg
      cases hg

/-- The invariant holds along any reachable run. -/
theorem reaches_inv {s u : QState} (h : Reaches s u) (hinv : QInv s) : QInv u := by
  induction h with
  | refl s => exact hinv
  | step hst _ ih => exact ih (qstep_preserves_inv hinv hst)

/-- The invariant holds at the start state. -/
theorem qinv_init : QInv initQ := by
  constructor
  · rfl
  · intro hr
    simp [initQ] at hr

/-- No queue step changes a state whose worker has exited. -/
theorem dead_step_eq {s u : QState} (hinv : QInv s) (hdead : s.running = false)
    (hst : QStep s u) : u = s := by
  obtain ⟨hstop, _⟩ := hinv.2 hdead
  cases hst with
  | commit t c h => rw [h] at hstop; cases hstop
  | execOne tc rest hrun hq => rw [hrun] at hdead; cases hdead
  | stopSignal g h => rw [h] at hstop; cases hstop
  | exitGraceful ha hb hc => cases s; simp_all
  | exitForced ha hb => cases s; simp_all

/-- A state whose worker has exited reaches only itself. -/
theorem dead_reaches_eq {s u : QState} (h : Reaches s u) :
    QInv s → s.running = false → u = s := by
  induction h with
  | refl s => intro _ _; rfl
  | step hst _ ih =>
      intro hinv hdead
      have ht := dead_step_eq hinv hdead hst
      rw [ht] at ih
      exact ih hinv hdead

/-- The visitor loop calls the visitor on each snapshot element in
order. -/
theorem visitLoop_eq (l : List Algorithm) : visitLoop l = l := by
  induction l with
  | nil => rfl
  | cons a rest ih => simp [visitLoop, ih]

/-- The casting wrapper keeps exactly the elements with the
visualization capability, in order. -/
theorem visWrapLoop_eq (l : List Algorithm) :
    visWrapLoop l = l.filter (fun a => a.isVis) := by
  induction l with
  | nil => rfl
  | cons a rest ih =>
      by_cases h : a.isVis = true
      · simp [visWrapLoop, List.filter_cons, h, ih]
      · simp [visWrapLoop, List.filter_cons, h, ih]

/-- If the spec-level validity predicate fails, the executed connect
command resolves no connection. -/
theorem validConnection_eq_none {src : Algorithm} {sn : String}
    {dst : Algorithm} {dn : String} (h : ¬ ResolvesValidly src sn dst dn) :
    validConnection src sn dst dn = none := by
  unfold validConnection
  cases hcs : findConnector src sn with
  | none => rfl
  | some cs =>
      cases hcd : findConnector dst dn with
      | none => rfl
      | some cd =>
          by_cases hb : ((!cs.isInput) && cd.isInput && (cs.typeTag == cd.typeTag)) = true
          · exfalso
            apply h
            simp only [Bool.and_eq_true, Bool.not_eq_true', beq_iff_eq] at hb
            exact ⟨cs, cd, hcs, hcd, hb.1.1, hb.1.2, hb.2⟩
          · simp [hb]

/-- If the spec-level validity predicate holds, the executed connect
command resolves exactly the corresponding connection record. -/
theorem validConnection_eq_some {src : Algorithm} {sn : String}
    {dst : Algorithm} {dn : String} (h : ResolvesValidly src sn dst dn) :
    validConnection src sn dst dn =
      some { srcAlg := src, srcConnector := sn, dstAlg := dst, dstConnector := dn } := by
  obtain ⟨cs, cd, hcs, hcd, h1, h2, h3⟩ := h
  unfold validConnection
  rw [hcs, hcd]
  simp [h1, h2, h3]

/-- Inserting an edge never changes the node set. -/
theorem addNetworkNodeEdge_algorithms (s : NetworkState) (c : Connection) :
    (addNetworkNodeEdge s c).algorithms = s.algorithms := by
  unfold addNetworkNodeEdge
  by_cases h : c ∈ s.connections
  · simp [h]
  · simp [h]

/-- Inserting an edge makes it a member of the edge set. -/
theorem mem_addNetworkNodeEdge (s : NetworkState) (c : Connection) :
    c ∈ (addNetworkNodeEdge s c).connections := by
  unfold addNetworkNodeEdge
  by_cases h : c ∈ s.connections
  · simp [h]
  · simp [h]

/-- The worker produces exactly one outcome per queued command. -/
theorem runCommands_length (s : NetworkState) (cs : List Cmd) :
    (runCommands s cs).2.length = cs.length := by
  induction cs generalizing s with
  | nil => rfl
  | cons c rest ih => simp [runCommands, ih]

/-- The filtered inputs are both null or both non-null with equal
grids. -/
theorem filterInputs_pair (dIn : Option TriangleDataSet)
    (vIn : Option TriangleVectorField) :
    filterInputs dIn vIn = (none, none) ∨
      ∃ d v, filterInputs dIn vIn = (some d, some v) ∧ d.grid = v.grid := by
  rcases dIn with _ | d <;> rcases vIn with _ | v <;>
    simp only [filterInputs]
  · exact Or.inl trivial
  · exact Or.inl trivial
  · exact Or.inl trivial
  · by_cases hg : (d.grid == v.grid) = true
    · exact Or.inr ⟨d, v, by simp [hg], beq_iff_eq.1 hg⟩
    · simp [hg]

/-- Field-level description of process: the stored pointers become the
filtered inputs and the renderRequest counter grows exactly when a
stored pointer changes. -/
theorem process_fields (s : RenderState) (dIn : Option TriangleDataSet)
    (vIn : Option TriangleVectorField) :
    (process s dIn vIn).visTriangleData = (filterInputs dIn vIn).1 ∧
    (process s dIn vIn).visTriangleVectorData = (filterInputs dIn vIn).2 ∧
    (process s dIn vIn).renderRequestCount =
      (if s.visTriangleData = (filterInputs dIn vIn).1 ∧
          s.visTriangleVectorData = (filterInputs dIn vIn).2
       then s.renderRequestCount else s.renderRequestCount + 1) := by
  simp only [process]
  by_cases hb : ((s.visTriangleData != (filterInputs dIn vIn).1) ||
      (s.visTriangleVectorData != (filterInputs dIn vIn).2)) = true
  · rw [if_pos hb]
    have hne : ¬(s.visTriangleData = (filterInputs dIn vIn).1 ∧
        s.visTriangleVectorData = (filterInputs dIn vIn).2) := by
      rcases Bool.or_eq_true_iff.1 hb with hx | hx <;>
        intro hand
      · exact bne_iff_ne.1 hx hand.1
      · exact bne_iff_ne.1 hx hand.2
    rw [if_neg hne]
    exact ⟨rfl, rfl, rfl⟩
  · rw [if_neg hb]
    have heq : s.visTriangleData = (filterInputs dIn vIn).1 ∧
        s.visTriangleVectorData = (filterInputs dIn vIn).2 := by
      rw [Bool.or_eq_true_iff] at hb
      push_neg at hb
      constructor
      · have := hb.1
        simpa [bne_iff_ne] using this
      · have := hb.2
        simpa [bne_iff_ne] using this
    rw [if_pos heq]
    exact ⟨rfl, rfl, rfl⟩

/-! ## Claim theorems -/

/-- C1: in every reachable queue state, the execution trace of the
worker is the initial segment of the arrival trace of the commits
(FIFO, no reordering once enqueued), and for every thread the commands
executed from that thread form the initial segment of the commands
that thread committed, in commit order. -/
theorem commandQueue_fifo_order (s : QState) (h : Reaches initQ s) :
    s.executed = s.committed.take s.executed.length ∧
    ∀ t : Nat, threadTrace t s.executed =
      (threadTrace t s.committed).take (threadTrace t s.executed).length := by
  have hq : s.executed ++ s.queue = s.committed :=
    (reaches_inv h qinv_init).1
  constructor
  · rw [← hq, List.take_left]
  · intro t
    rw [← hq]
    unfold threadTrace
    rw [List.filter_append, List.map_append, List.take_left]

/-- Witness for C1: a concrete run with commits from two threads and
one executed command. -/
theorem commandQueue_fifo_order_witness :
    Reaches initQ qw1 ∧
    qw1.executed = qw1.committed.take qw1.executed.length ∧
    threadTrace 0 qw1.executed =
      (threadTrace 0 qw1.committed).take (threadTrace 0 qw1.executed).length := by
  have htr : Reaches initQ qw1 :=
    Reaches.step (QStep.commit initQ 0 10 rfl)
      (Reaches.step (QStep.commit _ 1 20 rfl)
        (Reaches.step (QStep.execOne _ (0, 10) [(1, 20)] rfl rfl)
          (Reaches.refl qw1)))
  exact ⟨htr, (commandQueue_fifo_order qw1 htr).1,
    (commandQueue_fifo_order qw1 htr).2 0⟩

/-- C2: whenever the worker has exited, a graceful stop has executed
every committed command, the number of executed commands never exceeds
the number committed, the abandoned commands of the pending queue were
never executed (their observers were never invoked, commands being
distinct instances), and the dead queue takes no further step. -/
theorem stop_drain_semantics (s : QState) (h : Reaches initQ s)
    (hdead : s.running = false) :
    (s.graceful = true → s.executed = s.committed) ∧
    s.executed.length ≤ s.committed.length ∧
    (s.committed.Nodup → ∀ tc ∈ s.queue, tc ∉ s.executed) ∧
    (∀ u, Reaches s u → u = s) := by
  have hinv := reaches_inv h qinv_init
  have hq := hinv.1
  have h2 := hinv.2 hdead
  refine ⟨?_, ?_, ?_, ?_⟩
  · intro hg
    have hqe : s.queue = [] := h2.2 hg
    rw [← hq, hqe, List.append_nil]
  · rw [← hq, List.length_append]
    exact Nat.le_add_right _ _
  · intro hnd tc hmemq hmeme
    rw [← hq] at hnd
    exact List.disjoint_of_nodup_append hnd hmeme hmemq
  · intro u hu
    exact dead_reaches_eq hu hinv hdead

/-- Witness for C2: two commands committed by thread 0, then a forced
stop; both commands are abandoned and never executed. -/
theorem stop_drain_semantics_witness :
    Reaches initQ qw2 ∧ qw2.running = false ∧
    qw2.executed.length ≤ qw2.committed.length ∧
    (∀ tc ∈ qw2.queue, tc ∉ qw2.executed) := by
  have htr : Reaches initQ qw2 :=
    Reaches.step (QStep.commit initQ 0 1 rfl)
      (Reaches.step (QStep.commit _ 0 2 rfl)
        (Reaches.step (QStep.stopSignal _ false rfl)
          (Reaches.step (QStep.exitForced _ rfl rfl)
            (Reaches.refl qw2))))
  exact ⟨htr, rfl, (stop_drain_semantics qw2 htr rfl).2.1,
    (stop_drain_semantics qw2 htr rfl).2.2.1 (by decide)⟩

/-- C3: a command whose execution raises an error yields a failed
outcome for its own observer, leaves the network state untouched, and
the worker then processes the remaining queue exactly as it would have
without the failing command; every queued command receives exactly one
outcome. -/
theorem worker_failure_isolation (s : NetworkState) (cs : List Cmd) :
    (runCommands s (Cmd.failingCmd :: cs)).2 =
      Outcome.failure :: (runCommands s cs).2 ∧
    (runCommands s (Cmd.failingCmd :: cs)).1 = (runCommands s cs).1 ∧
    (runCommands s cs).2.length = cs.length := by
  refine ⟨rfl, rfl, runCommands_length s cs⟩

/-- C4: for a duplicate-free node set, visitAlgorithms invokes the
visitor exactly once per element of the snapshot (and never on
anything else), in snapshot order, and visitVisualizations invokes its
visitor exactly on the snapshot elements with the visualization
capability. -/
theorem visit_snapshot (s : NetworkState) (hnd : s.algorithms.Nodup) :
    visitAlgorithmsTrace s = s.algorithms ∧
    (∀ a ∈ s.algorithms, (visitAlgorithmsTrace s).count a = 1) ∧
    (∀ a, a ∉ s.algorithms → (visitAlgorithmsTrace s).count a = 0) ∧
    visitVisualizationsTrace s = s.algorithms.filter (fun a => a.isVis) := by
  have hv : visitAlgorithmsTrace s = s.algorithms := visitLoop_eq s.algorithms
  refine ⟨hv, ?_, ?_, ?_⟩
  · intro a ha
    rw [hv]
    exact List.count_eq_one_of_mem hnd ha
  · intro a ha
    rw [hv]
    exact List.count_eq_zero.2 ha
  · rw [visitVisualizationsTrace, hv]
    exact visWrapLoop_eq s.algorithms

/-- Witness for C4: a two-element node set, one element with the
visualization capability. -/
theorem visit_snapshot_witness :
    visitAlgorithmsTrace
        { algorithms := [⟨0, [], true⟩, ⟨1, [], false⟩], connections := [] } =
      [⟨0, [], true⟩, ⟨1, [], false⟩] ∧
    (visitAlgorithmsTrace
        { algorithms := [⟨0, [], true⟩, ⟨1, [], false⟩], connections := [] }).count
        ⟨0, [], true⟩ = 1 ∧
    visitVisualizationsTrace
        { algorithms := [⟨0, [], true⟩, ⟨1, [], false⟩], connections := [] } =
      [⟨0, [], true⟩] := by
  refine ⟨(visit_snapshot _ (by decide)).1,
    (visit_snapshot _ (by decide)).2.1 _ (by decide), ?_⟩
  have h := (visit_snapshot
    { algorithms := [⟨0, [], true⟩, ⟨1, [], false⟩], connections := [] }
    (by decide)).2.2.2
  rw [h]
  decide

/-- C5: adding an algorithm that is already a member leaves the node
set unchanged (exactly one membership) while the second add command
still reports success; likewise, adding an already-present connection
leaves the edge set unchanged with exactly one membership. -/
theorem membership_idempotent (s : NetworkState) (a : Algorithm)
    (c : Connection) (ha : a ∉ s.algorithms) (hc : c ∉ s.connections) :
    (applyCmd (.addAlgorithmCmd a) (applyCmd (.addAlgorithmCmd a) s).1).1 =
      (applyCmd (.addAlgorithmCmd a) s).1 ∧
    (applyCmd (.addAlgorithmCmd a) (applyCmd (.addAlgorithmCmd a) s).1).2 =
      .success ∧
    (applyCmd (.addAlgorithmCmd a)
        (applyCmd (.addAlgorithmCmd a) s).1).1.algorithms.count a = 1 ∧
    addNetworkNodeEdge (addNetworkNodeEdge s c) c = addNetworkNodeEdge s c ∧
    (addNetworkNodeEdge (addNetworkNodeEdge s c) c).connections.count c = 1 := by
  have h1 : (applyCmd (.addAlgorithmCmd a) s).1 =
      { s with algorithms := s.algorithms ++ [a] } := by
    simp [applyCmd, addNetworkNode, ha]
  have hmem : a ∈ s.algorithms ++ [a] := by simp
  have h2 : (applyCmd (.addAlgorithmCmd a)
      { s with algorithms := s.algorithms ++ [a] } : NetworkState × Outcome) =
      ({ s with algorithms := s.algorithms ++ [a] }, .success) := by
    simp [applyCmd, addNetworkNode, hmem]
  have he1 : addNetworkNodeEdge s c =
      { s with connections := s.connections ++ [c] } := by
    simp [addNetworkNodeEdge, hc]
  have hmc : c ∈ s.connections ++ [c] := by simp
  have he2 : addNetworkNodeEdge
      { s with connections := s.connections ++ [c] } c =
      { s with connections := s.connections ++ [c] } := by
    simp [addNetworkNodeEdge, hmc]
  refine ⟨?_, ?_, ?_, ?_, ?_⟩
  · rw [h1, h2]
  · rw [h1, h2]
  · rw [h1, h2]
    simp [List.count_append, List.count_eq_zero.2 ha]
  · rw [he1, he2]
  · rw [he1, he2]
    simp [List.count_append, List.count_eq_zero.2 hc]

/-- Witness for C5: a fresh algorithm and a fresh connection added
twice to the empty network. -/
theorem membership_idempotent_witness :
    (applyCmd (.addAlgorithmCmd ⟨0, [], false⟩)
        (applyCmd (.addAlgorithmCmd ⟨0, [], false⟩)
          { algorithms := [], connections := [] }).1).2 = .success ∧
    (applyCmd (.addAlgorithmCmd ⟨0, [], false⟩)
        (applyCmd (.addAlgorithmCmd ⟨0, [], false⟩)
          { algorithms := [], connections := [] }).1).1.algorithms.count
        ⟨0, [], false⟩ = 1 := by
  exact ⟨(membership_idempotent { algorithms := [], connections := [] }
      ⟨0, [], false⟩ ⟨⟨0, [], false⟩, "x", ⟨0, [], false⟩, "y"⟩
      (by decide) (by decide)).2.1,
    (membership_idempotent { algorithms := [], connections := [] }
      ⟨0, [], false⟩ ⟨⟨0, [], false⟩, "x", ⟨0, [], false⟩, "y"⟩
      (by decide) (by decide)).2.2.1⟩

/-- C6: a connect command whose connector names do not resolve to
existing, direction-compatible, type-matching connectors reports
failure to its observer and leaves the network, in particular its edge
set, unchanged. -/
theorem connect_invalid_rejected (s : NetworkState) (src : Algorithm)
    (sn : String) (dst : Algorithm) (dn : String)
    (h : ¬ ResolvesValidly src sn dst dn) :
    (applyCmd (.connectCmd src sn dst dn) s).2 = .failure ∧
    (applyCmd (.connectCmd src sn dst dn) s).1.connections = s.connections ∧
    (applyCmd (.connectCmd src sn dst dn) s).1 = s := by
  have hv := validConnection_eq_none h
  refine ⟨?_, ?_, ?_⟩ <;> simp [applyCmd, hv]

/-- Witness for C6: connecting through a name that exists on neither
algorithm fails and adds no edge. -/
theorem connect_invalid_rejected_witness :
    (applyCmd (.connectCmd ⟨0, [], false⟩ "nope" ⟨1, [], false⟩ "nope")
        { algorithms := [], connections := [] }).2 = .failure ∧
    (applyCmd (.connectCmd ⟨0, [], false⟩ "nope" ⟨1, [], false⟩ "nope")
        { algorithms := [], connections := [] }).1.connections = [] := by
  have h : ¬ ResolvesValidly ⟨0, [], false⟩ "nope" ⟨1, [], false⟩ "nope" := by
    intro hr
    obtain ⟨cs, cd, hcs, _⟩ := hr
    simp [findConnector] at hcs
  exact ⟨(connect_invalid_rejected _ _ _ _ _ h).1,
    (connect_invalid_rejected _ _ _ _ _ h).2.1⟩

/-- C7: a connect command with valid, compatible connectors succeeds
and records the edge even when the source algorithm is not a member of
the node set; membership in the node set is not a precondition, and
the node set itself is untouched. -/
theorem connect_breakout (s : NetworkState) (src : Algorithm) (sn : String)
    (dst : Algorithm) (dn : String) (h : ResolvesValidly src sn dst dn)
    (hmem : src ∉ s.algorithms) :
    (applyCmd (.connectCmd src sn dst dn) s).2 = .success ∧
    ({ srcAlg := src, srcConnector := sn, dstAlg := dst,
       dstConnector := dn } : Connection) ∈
      (applyCmd (.connectCmd src sn dst dn) s).1.connections ∧
    (applyCmd (.connectCmd src sn dst dn) s).1.algorithms = s.algorithms := by
  have hv := validConnection_eq_some h
  refine ⟨?_, ?_, ?_⟩
  · simp [applyCmd, hv]
  · simp only [applyCmd, hv]
    exact mem_addNetworkNodeEdge s _
  · simp only [applyCmd, hv]
    exact addNetworkNodeEdge_algorithms s _

/-- Witness for C7: a valid connection between two algorithms, neither
of which is in the node set of the empty network. -/
theorem connect_breakout_witness :
    (applyCmd (.connectCmd ⟨1, [⟨"out", false, 5⟩], false⟩ "out"
        ⟨2, [⟨"in", true, 5⟩], false⟩ "in")
        { algorithms := [], connections := [] }).2 = .success ∧
    ({ srcAlg := ⟨1, [⟨"out", false, 5⟩], false⟩, srcConnector := "out",
       dstAlg := ⟨2, [⟨"in", true, 5⟩], false⟩,
       dstConnector := "in" } : Connection) ∈
      (applyCmd (.connectCmd ⟨1, [⟨"out", false, 5⟩], false⟩ "out"
        ⟨2, [⟨"in", true, 5⟩], false⟩ "in")
        { algorithms := [], connections := [] }).1.connections := by
  have h : ResolvesValidly ⟨1, [⟨"out", false, 5⟩], false⟩ "out"
      ⟨2, [⟨"in", true, 5⟩], false⟩ "in" :=
    ⟨⟨"out", false, 5⟩, ⟨"in", true, 5⟩, by decide, by decide, rfl, rfl, rfl⟩
  exact ⟨(connect_breakout _ _ _ _ _ h (by decide)).1,
    (connect_breakout _ _ _ _ _ h (by decide)).2.1⟩

/-- C8: applying a not-yet-handled command marks it handled with its
outcome and notifies its observer exactly once more; applying any
command that has already been handled signals a loud usage error
instead of executing again. -/
theorem command_single_use (c : CommandInstance) (r : Outcome)
    (h : c.isHandled = false) :
    handleCommand c r = .ok ⟨true, c.notifyCount + 1, some r⟩ ∧
    (∀ d r2, handleCommand c r = .ok d → handleCommand d r2 = .usageError) := by
  constructor
  · simp [handleCommand, h]
  · intro d r2 hd
    simp [handleCommand, h] at hd
    rw [← hd]
    simp [handleCommand]

/-- Witness for C8: a fresh command handled with success is notified
once; handling it again signals the usage error. -/
theorem command_single_use_witness :
    handleCommand ⟨false, 0, none⟩ .success =
      .ok ⟨true, 1, some .success⟩ ∧
    handleCommand ⟨true, 1, some .success⟩ .success = .usageError := by
  exact ⟨(command_single_use ⟨false, 0, none⟩ .success rfl).1,
    (command_single_use ⟨false, 0, none⟩ .success rfl).2
      ⟨true, 1, some .success⟩ .success
      (command_single_use ⟨false, 0, none⟩ .success rfl).1⟩

/-- C9: after process, the two stored pointers are either both null or
both non-null with equal grids, and renderRequest has been invoked
exactly when at least one stored pointer changed from its previous
value. -/
theorem process_pair_invariant (s : RenderState) (dIn : Option TriangleDataSet)
    (vIn : Option TriangleVectorField) :
    (((process s dIn vIn).visTriangleData = none ∧
        (process s dIn vIn).visTriangleVectorData = none) ∨
      (∃ d v, (process s dIn vIn).visTriangleData = some d ∧
        (process s dIn vIn).visTriangleVectorData = some v ∧
        d.grid = v.grid)) ∧
    ((process s dIn vIn).visTriangleData = s.visTriangleData ∧
        (process s dIn vIn).visTriangleVectorData = s.visTriangleVectorData →
      (process s dIn vIn).renderRequestCount = s.renderRequestCount) ∧
    (¬((process s dIn vIn).visTriangleData = s.visTriangleData ∧
        (process s dIn vIn).visTriangleVectorData = s.visTriangleVectorData) →
      (process s dIn vIn).renderRequestCount = s.renderRequestCount + 1) := by
  obtain ⟨h1, h2, h3⟩ := process_fields s dIn vIn
  refine ⟨?_, ?_, ?_⟩
  · rcases filterInputs_pair dIn vIn with h | ⟨d, v, hdv, hg⟩
    · left
      rw [h1, h2, h]
      exact ⟨rfl, rfl⟩
    · right
      exact ⟨d, v, by rw [h1, hdv], by rw [h2, hdv], hg⟩
  · intro he
    rw [h3, if_pos ⟨he.1.symm.trans h1, he.2.symm.trans h2⟩]
  · intro hne
    rw [h3, if_neg ?_]
    intro hand
    exact hne ⟨h1.trans hand.1.symm, h2.trans hand.2.symm⟩

/-- Witness for C9: grid-mismatched inputs are discarded as a pair and
trigger one renderRequest from a state that previously held data. -/
theorem process_pair_invariant_witness :
    ((process ⟨some ⟨7, ⟨0, ⟨none⟩⟩⟩, some ⟨8, ⟨0, ⟨none⟩⟩⟩, false, 0⟩
        (some ⟨7, ⟨0, ⟨none⟩⟩⟩) (some ⟨9, ⟨1, ⟨none⟩⟩⟩)).visTriangleData = none ∧
      (process ⟨some ⟨7, ⟨0, ⟨none⟩⟩⟩, some ⟨8, ⟨0, ⟨none⟩⟩⟩, false, 0⟩
        (some ⟨7, ⟨0, ⟨none⟩⟩⟩)
        (some ⟨9, ⟨1, ⟨none⟩⟩⟩)).visTriangleVectorData = none) ∧
    (process ⟨some ⟨7, ⟨0, ⟨none⟩⟩⟩, some ⟨8, ⟨0, ⟨none⟩⟩⟩, false, 0⟩
      (some ⟨7, ⟨0, ⟨none⟩⟩⟩)
      (some ⟨9, ⟨1, ⟨none⟩⟩⟩)).renderRequestCount = 1 := by
  have h := process_pair_invariant ⟨some ⟨7, ⟨0, ⟨none⟩⟩⟩, some ⟨8, ⟨0, ⟨none⟩⟩⟩, false, 0⟩
    (some ⟨7, ⟨0, ⟨none⟩⟩⟩) (some ⟨9, ⟨1, ⟨none⟩⟩⟩)
  refine ⟨⟨?_, ?_⟩, ?_⟩
  · decide
  · decide
  · exact h.2.2 (by decide)

/-- C10: getBoundingBox returns the default empty bounding box exactly
when no triangle data is stored, and otherwise the bounding box of the
grid of the stored data; being a total match on the optional pointer,
it never dereferences absent data. -/
theorem getBoundingBox_cases (s : RenderState) :
    (s.visTriangleData = none → getBoundingBox s = emptyBoundingBox) ∧
    (∀ d, s.visTriangleData = some d → getBoundingBox s = d.grid.bbox) := by
  constructor
  · intro h
    simp [getBoundingBox, h]
  · intro d h
    simp [getBoundingBox, h]

/-- Witness for C10: the empty box without data, the grid box with
data. -/
theorem getBoundingBox_cases_witness :
    getBoundingBox ⟨none, none, false, 0⟩ = emptyBoundingBox ∧
    getBoundingBox ⟨some ⟨7, ⟨0, ⟨some (0, 3)⟩⟩⟩, none, false, 0⟩ =
      ⟨some (0, 3)⟩ := by
  exact ⟨(getBoundingBox_cases ⟨none, none, false, 0⟩).1 rfl,
    (getBoundingBox_cases ⟨some ⟨7, ⟨0, ⟨some (0, 3)⟩⟩⟩, none, false, 0⟩).2
      ⟨7, ⟨0, ⟨some (0, 3)⟩⟩⟩ rfl⟩

